import Mathlib

/- Verification of the GitHub trending tracker (github_trending_tracker.py and
   github-trending-scraper.py): a shallow embedding of the data model, the
   history diff, the history store serialization, the extractor, and the
   two notifier variants, together with proofs of the specified properties. -/

set_option autoImplicit false

/-- A repository record as built by `fetch_trending_repos` in
github_trending_tracker.py: string fields repo, description, language, stars
and the first-seen timestamp. -/
structure RepoRecord where
  repo : String
  description : String
  language : String
  stars : String
  first_seen : String
deriving DecidableEq

/-- The history store mapping: a Python dict from repository identifier to
record, modelled as an association list in insertion order (Python dicts
preserve insertion order; new keys are appended at the end). -/
abbrev History := List (String × RepoRecord)

/-- Dict key lookup: first entry whose key matches. -/
def lookupHist : History → String → Option RepoRecord
  | [], _ => none
  | (k, v) :: rest, key => if k = key then some v else lookupHist rest key

/-- The diff loop of `main` (lines 143-148 of github_trending_tracker.py):
for each fetched record, if its identifier is not in the history the record is
classified new, appended to the output, and inserted into the history
(a fresh dict key is appended at the end); otherwise it is skipped. -/
def findNewRepos : List RepoRecord → History → List RepoRecord × History
  | [], history => ([], history)
  | repo :: rest, history =>
    match lookupHist history repo.repo with
    | some _ => findNewRepos rest history
    | none =>
      let res := findNewRepos rest (history ++ [(repo.repo, repo)])
      (repo :: res.1, res.2)

/-- Drop matching characters from both ends of a character list. -/
def trimListChars (p : Char → Bool) (cs : List Char) : List Char :=
  ((cs.dropWhile p).reverse.dropWhile p).reverse

/-- Python str.strip with an explicit character predicate. -/
def stripChars (p : Char → Bool) (s : String) : String :=
  String.mk (trimListChars p s.toList)

/-- Python `.strip("/")`: trim leading and trailing slashes. -/
def stripSlashes (s : String) : String := stripChars (fun c => c == '/') s

/-- Python `.strip()`: trim leading and trailing whitespace. -/
def stripWs (s : String) : String := stripChars Char.isWhitespace s

/-- One repository entry block of the trending page (an `article.Box-row`),
abstracted to the query results the extractors read: the `h2 a` link href
(none when the element is missing), the first paragraph text, the
programmingLanguage span text and the first muted link text. -/
structure Article where
  repoLink : Option String
  descriptionText : Option String
  languageText : Option String
  starsText : Option String
deriving DecidableEq

/-- The record built for one entry block by `fetch_trending_repos`
(lines 46-67 of github_trending_tracker.py), given that the repo link element
is present with href `href`: every other field falls back to its own default
(empty description, "Unknown" language, "0" stars) when its element is
missing. -/
def trackerRecord (now : String) (a : Article) (href : String) : RepoRecord :=
  { repo := stripSlashes href,
    description := match a.descriptionText with | some d => stripWs d | none => "",
    language := match a.languageText with | some s => stripWs s | none => "Unknown",
    stars := match a.starsText with | some s => stripWs s | none => "0",
    first_seen := now }

/-- The extraction loop of `fetch_trending_repos`: entries without a repo
link element are skipped, all others yield a record. -/
def parseArticles (now : String) : List Article → List RepoRecord
  | [] => []
  | a :: rest =>
    match a.repoLink with
    | some href => trackerRecord now a href :: parseArticles now rest
    | none => parseArticles now rest

/-- `fetch_trending_repos` (lines 34-69): on a non-200 status the function
logs and returns the empty list; on 200 it parses the entry blocks. -/
def fetchTrendingRepos (status : Nat) (now : String) (articles : List Article) : List RepoRecord :=
  if status ≠ 200 then [] else parseArticles now articles

/-- A repository record as built by `scrape_github_trending` in
github-trending-scraper.py: name, full url and description. -/
structure ScrapedRepo where
  name : String
  url : String
  description : String
deriving DecidableEq

/-- The record built for one entry block by `scrape_github_trending`
(lines 50-68), given the repo link href: the description defaults to the
placeholder text when the paragraph is missing. -/
def scrapedRecord (a : Article) (href : String) : ScrapedRepo :=
  { name := stripSlashes href,
    url := "https://github.com" ++ href,
    description := match a.descriptionText with | some d => stripWs d | none => "Нет описания" }

/-- The extraction loop of `scrape_github_trending`: a missing repo link
element raises inside the per-entry try block, the exception is caught and
only that entry is skipped. -/
def scrapeRepos : List Article → List ScrapedRepo
  | [] => []
  | a :: rest =>
    match a.repoLink with
    | some href => scrapedRecord a href :: scrapeRepos rest
    | none => scrapeRepos rest

/-- JSON values as far as the persisted history file uses them: strings and
objects with ordered string keys. -/
inductive JsonVal where
  | str : String → JsonVal
  | obj : List (String × JsonVal) → JsonVal

/-- Serialization of one record, as `json.dump` renders the dict built by
`fetch_trending_repos`: an object with the five string fields in order. -/
def recordToJson (r : RepoRecord) : JsonVal :=
  JsonVal.obj [("repo", JsonVal.str r.repo), ("description", JsonVal.str r.description),
    ("language", JsonVal.str r.language), ("stars", JsonVal.str r.stars),
    ("first_seen", JsonVal.str r.first_seen)]

/-- Reading one record back from its JSON object, as `json.load` rebuilds
the dict. -/
def jsonToRecord : JsonVal → Option RepoRecord
  | JsonVal.obj [(k1, JsonVal.str v1), (k2, JsonVal.str v2), (k3, JsonVal.str v3),
      (k4, JsonVal.str v4), (k5, JsonVal.str v5)] =>
    if k1 = "repo" ∧ k2 = "description" ∧ k3 = "language" ∧ k4 = "stars" ∧ k5 = "first_seen" then
      some { repo := v1, description := v2, language := v3, stars := v4, first_seen := v5 }
    else none
  | _ => none

/-- `save_history` (lines 83-86): serializes the whole mapping, overwriting
the file; modelled as producing the JSON document that is written. -/
def saveHistory (h : History) : JsonVal :=
  JsonVal.obj (h.map fun p => (p.1, recordToJson p.2))

/-- Reading the entries of the history object back one by one. -/
def loadEntries : List (String × JsonVal) → Option History
  | [] => some []
  | (k, v) :: rest =>
    match jsonToRecord v, loadEntries rest with
    | some r, some t => some ((k, r) :: t)
    | _, _ => none

/-- `load_history` (lines 71-81) applied to a parsed JSON document: rebuild
the mapping from the serialized object. -/
def loadHistory : JsonVal → Option History
  | JsonVal.obj entries => loadEntries entries
  | _ => none

/-- The Telegram configuration `return_telegram_config` builds
(lines 88-94 of github_trending_tracker.py): the two environment values are
stored as-is, with no validation — a missing variable simply stays None. -/
structure TelegramConfig where
  token : Option String
  chat_id : Option String
deriving DecidableEq

/-- `return_telegram_config`: reads TELEGRAM_BOT_TOKEN and
TELEGRAM_CHANNEL_ID from the environment and packs them unchecked. -/
def returnTelegramConfig (envToken envChatId : Option String) : TelegramConfig :=
  { token := envToken, chat_id := envChatId }

/-- The HTTP request a send step issues against the bot API. -/
structure TelegramRequest where
  url : String
  chat_id : Option String
  text : String
deriving DecidableEq

/-- Python str() of an optional environment value inside an f-string:
None renders as the text "None". -/
def optStr : Option String → String
  | none => "None"
  | some s => s

/-- `send_to_telegram` of github_trending_tracker.py (lines 96-110): builds
the request unconditionally — there is no token check, a missing token is
interpolated into the URL as the text None. -/
def sendToTelegramTracker (message : String) (config : TelegramConfig) : TelegramRequest :=
  { url := "https://api.telegram.org/bot" ++ optStr config.token ++ "/sendMessage",
    chat_id := config.chat_id,
    text := message }

/-- The ValueError message raised by the scraper's send function when the
token is missing. -/
def tokenErrorText : String :=
  "Требуется указать TELEGRAM_BOT_TOKEN как переменную окружения или передать как параметр"

/-- `send_to_telegram` of github-trending-scraper.py (lines 76-104): a falsy
token (absent or empty) raises ValueError before the request is issued;
otherwise the request is built and issued. -/
def sendToTelegramScraper (chatId : Option String) (message : String) (token : Option String) :
    Except String TelegramRequest :=
  if token = none ∨ token = some "" then Except.error tokenErrorText
  else Except.ok
    { url := "https://api.telegram.org/bot" ++ optStr token ++ "/sendMessage",
      chat_id := chatId,
      text := message }

/-- The message `format_repos_for_telegram` returns for an empty input
(line 117 of github_trending_tracker.py). -/
def noNewMessage (today : String) : String :=
  "<b>GitHub Trending Update (" ++ today ++ ")</b> No new trending repositories found today."

/-- A single-quote character, as used around the href attribute in the
formatted links. -/
def quoteMark : String := String.singleton (Char.ofNat 39)

/-- One numbered repository block of the tracker's message (lines 123-127). -/
def repoBlock (i : Nat) (r : RepoRecord) : String :=
  toString i ++ ". <a href=" ++ quoteMark ++ "https://github.com/" ++ r.repo ++ quoteMark ++ ">" ++ r.repo ++
    "</a>\n<b>Language:</b> " ++ r.language ++ " | <b>Stars:</b> " ++ r.stars ++
    "\n<b>Description:</b> " ++ r.description ++ "\n\n"

/-- The enumerate loop of `format_repos_for_telegram`, numbering from 1. -/
def repoBlocks : Nat → List RepoRecord → String
  | _, [] => ""
  | i, r :: rs => repoBlock i r ++ repoBlocks (i + 1) rs

/-- `format_repos_for_telegram` (lines 112-130): a single message for ALL
records — the empty case yields the fixed no-new-repositories message, the
nonempty case one message with header, all blocks, and the total count. -/
def formatReposForTelegram (today : String) : List RepoRecord → String
  | [] => noNewMessage today
  | repos =>
    "<b>🔥 New GitHub Trending Repositories (" ++ today ++ ")</b>\n\n" ++
      repoBlocks 1 repos ++ "Total new repositories: " ++ toString repos.length

/-- The observable outcome of one run of `main` in
github_trending_tracker.py: the new records found, the mapping passed to
`save_history`, and the Telegram requests issued. -/
structure RunResult where
  newRepos : List RepoRecord
  savedHistory : History
  sent : List TelegramRequest
deriving DecidableEq

/-- `main` of github_trending_tracker.py (lines 132-166) downstream of the
fetch: diff against the history, save the updated mapping, format the new
records (always exactly one message) and send it. -/
def runMain (today : String) (config : TelegramConfig) (fetched : List RepoRecord)
    (initialHistory : History) : RunResult :=
  { newRepos := (findNewRepos fetched initialHistory).1,
    savedHistory := (findNewRepos fetched initialHistory).2,
    sent := [sendToTelegramTracker
      (formatReposForTelegram today (findNewRepos fetched initialHistory).1) config] }

/-- Header of the scraper's first Telegram message (line 126 of
github-trending-scraper.py). -/
def mainHeader : String := "<b>🔥 GitHub Trending Репозитории за неделю</b>\n\n"

/-- Header of every follow-up message (lines 146 and 155). -/
def contHeader : String := "<b>🔥 GitHub Trending Репозитории (продолжение)</b>\n\n"

/-- One Telegram message of the scraper's batch: its header and the
repository blocks appended to it, in order. -/
structure TgMessage where
  header : String
  recs : List ScrapedRepo
deriving DecidableEq

/-- State of the scraper's send loop: the message being accumulated and the
messages sent so far. -/
structure SendState where
  message : TgMessage
  sent : List TgMessage
deriving DecidableEq

/-- Appending one repository block to the current message. -/
def addRepo (m : TgMessage) (r : ScrapedRepo) : TgMessage :=
  { m with recs := m.recs ++ [r] }

/-- One iteration of the scraper's send loop (lines 128-155 of
github-trending-scraper.py), for 1-based index `i` out of `n` repositories:
the first ten records accumulate; at i = 11 the first message is sent and a
continuation message starts; past ten, the current message is sent whenever
i is a multiple of ten or the last index, then a fresh continuation message
starts. -/
def scraperStep (n : Nat) (st : SendState) (i : Nat) (r : ScrapedRepo) : SendState :=
  if i ≤ 10 then { st with message := addRepo st.message r }
  else
    let st1 := if i = 11 then
        { message := { header := contHeader, recs := [] }, sent := st.sent ++ [st.message] }
      else st
    let st2 := { st1 with message := addRepo st1.message r }
    if i % 10 = 0 ∨ i = n then
      { message := { header := contHeader, recs := [] }, sent := st2.sent ++ [st2.message] }
    else st2

/-- The scraper's send loop over the enumerated repositories. -/
def scraperLoop (n : Nat) : Nat → SendState → List ScrapedRepo → SendState
  | _, st, [] => st
  | i, st, r :: rs => scraperLoop n (i + 1) (scraperStep n st i r) rs

/-- The full batch of messages the scraper's `main` sends for a nonempty
repository list (lines 126-160): run the loop starting from the main-header
message, and afterwards send the accumulated message only when there were at
most ten repositories. -/
def scraperMessages (repos : List ScrapedRepo) : List TgMessage :=
  let n := repos.length
  let final := scraperLoop n 1 { message := { header := mainHeader, recs := [] }, sent := [] } repos
  if n ≤ 10 then final.sent ++ [final.message] else final.sent

/- Helper lemmas about the history lookup and the diff loop. -/

theorem lookupHist_append_some (h1 h2 : History) (k : String) (v : RepoRecord)
    (hv : lookupHist h1 k = some v) : lookupHist (h1 ++ h2) k = some v := by
  induction h1 with
  | nil => simp [lookupHist] at hv
  | cons p t ih =>
    obtain ⟨a, b⟩ := p
    by_cases hk : a = k
    · simp [lookupHist, hk] at hv ⊢
      exact hv
    · simp [lookupHist, hk] at hv ⊢
      exact ih hv

theorem lookupHist_append_none (h1 h2 : History) (k : String)
    (hv : lookupHist h1 k = none) : lookupHist (h1 ++ h2) k = lookupHist h2 k := by
  induction h1 with
  | nil => simp
  | cons p t ih =>
    obtain ⟨a, b⟩ := p
    by_cases hk : a = k
    · simp [lookupHist, hk] at hv
    · simp [lookupHist, hk] at hv ⊢
      exact ih hv

theorem lookupHist_append_none_left (h1 h2 : History) (k : String)
    (hn : lookupHist (h1 ++ h2) k = none) : lookupHist h1 k = none := by
  cases hv : lookupHist h1 k with
  | none => rfl
  | some v => rw [lookupHist_append_some h1 h2 k v hv] at hn; exact absurd hn (by simp)

theorem lookupHist_single (k : String) (v : RepoRecord) : lookupHist [(k, v)] k = some v := by
  simp [lookupHist]

theorem lookupHist_single_ne (k k' : String) (v : RepoRecord) (hne : k ≠ k') :
    lookupHist [(k, v)] k' = none := by
  simp [lookupHist, hne]

theorem findNewRepos_cons_some (a : RepoRecord) (rs : List RepoRecord) (h : History)
    (v : RepoRecord) (hl : lookupHist h a.repo = some v) :
    findNewRepos (a :: rs) h = findNewRepos rs h := by
  simp [findNewRepos, hl]

theorem findNewRepos_cons_none (a : RepoRecord) (rs : List RepoRecord) (h : History)
    (hl : lookupHist h a.repo = none) :
    findNewRepos (a :: rs) h =
      (a :: (findNewRepos rs (h ++ [(a.repo, a)])).1,
        (findNewRepos rs (h ++ [(a.repo, a)])).2) := by
  simp [findNewRepos, hl]

theorem findNewRepos_hist_eq (current : List RepoRecord) (h : History) :
    (findNewRepos current h).2 = h ++ (findNewRepos current h).1.map (fun r => (r.repo, r)) := by
  induction current generalizing h with
  | nil => simp [findNewRepos]
  | cons a rs ih =>
    cases hl : lookupHist h a.repo with
    | some v => rw [findNewRepos_cons_some a rs h v hl]; exact ih h
    | none =>
      rw [findNewRepos_cons_none a rs h hl]
      simp only [List.map_cons]
      rw [ih (h ++ [(a.repo, a)])]
      simp [List.append_assoc]

theorem lookup_preserved (current : List RepoRecord) (h : History) (k : String) (v : RepoRecord)
    (hv : lookupHist h k = some v) : lookupHist (findNewRepos current h).2 k = some v := by
  rw [findNewRepos_hist_eq]
  exact lookupHist_append_some _ _ _ _ hv

theorem mem_new_lookup_none (current : List RepoRecord) (r : RepoRecord) :
    ∀ h : History, r ∈ (findNewRepos current h).1 → lookupHist h r.repo = none := by
  induction current with
  | nil => intro h hr; simp [findNewRepos] at hr
  | cons a rs ih =>
    intro h hr
    cases hl : lookupHist h a.repo with
    | some v =>
      rw [findNewRepos_cons_some a rs h v hl] at hr
      exact ih h hr
    | none =>
      rw [findNewRepos_cons_none a rs h hl] at hr
      rcases List.mem_cons.mp hr with heq | hr2
      · rw [heq]; exact hl
      · exact lookupHist_append_none_left h _ r.repo (ih _ hr2)

theorem new_sublist (current : List RepoRecord) (h : History) :
    (findNewRepos current h).1.Sublist current := by
  induction current generalizing h with
  | nil => simp [findNewRepos]
  | cons a rs ih =>
    cases hl : lookupHist h a.repo with
    | some v => rw [findNewRepos_cons_some a rs h v hl]; exact (ih h).cons a
    | none => rw [findNewRepos_cons_none a rs h hl]; exact (ih _).cons₂ a

theorem new_coverage (current : List RepoRecord) (r : RepoRecord) :
    ∀ h : History, r ∈ current → lookupHist h r.repo = none →
      ∃ q ∈ (findNewRepos current h).1, q.repo = r.repo := by
  induction current with
  | nil => intro h hr _; simp at hr
  | cons a rs ih =>
    intro h hr hn
    cases hl : lookupHist h a.repo with
    | some v =>
      rw [findNewRepos_cons_some a rs h v hl]
      rcases List.mem_cons.mp hr with heq | hr2
      · rw [heq] at hn; rw [hn] at hl; cases hl
      · exact ih h hr2 hn
    | none =>
      rw [findNewRepos_cons_none a rs h hl]
      rcases List.mem_cons.mp hr with heq | hr2
      · exact ⟨a, List.mem_cons_self a _, by rw [heq]⟩
      · by_cases hk : a.repo = r.repo
        · exact ⟨a, List.mem_cons_self a _, hk⟩
        · have hn' : lookupHist (h ++ [(a.repo, a)]) r.repo = none := by
            rw [lookupHist_append_none h _ _ hn]
            exact lookupHist_single_ne a.repo r.repo a hk
          obtain ⟨q, hq, he⟩ := ih _ hr2 hn'
          exact ⟨q, List.mem_cons_of_mem a hq, he⟩

theorem final_contains (current : List RepoRecord) (r : RepoRecord) :
    ∀ h : History, r ∈ current →
      (lookupHist (findNewRepos current h).2 r.repo).isSome = true := by
  induction current with
  | nil => intro h hr; simp at hr
  | cons a rs ih =>
    intro h hr
    cases hl : lookupHist h a.repo with
    | some v =>
      rw [findNewRepos_cons_some a rs h v hl]
      rcases List.mem_cons.mp hr with heq | hr2
      · rw [heq, lookup_preserved rs h a.repo v hl]; rfl
      · exact ih h hr2
    | none =>
      rw [findNewRepos_cons_none a rs h hl]
      rcases List.mem_cons.mp hr with heq | hr2
      · have hsome : lookupHist (h ++ [(a.repo, a)]) a.repo = some a := by
          rw [lookupHist_append_none h _ _ hl]
          exact lookupHist_single a.repo a
        rw [heq, lookup_preserved rs _ a.repo a hsome]; rfl
      · exact ih _ hr2

theorem no_new_of_all_present (current : List RepoRecord) :
    ∀ h : History, (∀ r ∈ current, (lookupHist h r.repo).isSome = true) →
      findNewRepos current h = ([], h) := by
  induction current with
  | nil => intro h _; rfl
  | cons a rs ih =>
    intro h hall
    have ha := hall a (List.mem_cons_self a rs)
    cases hl : lookupHist h a.repo with
    | none => rw [hl] at ha; simp at ha
    | some v =>
      rw [findNewRepos_cons_some a rs h v hl]
      exact ih h (fun r hr => hall r (List.mem_cons_of_mem a hr))

theorem new_ids_nodup (current : List RepoRecord) :
    ∀ h : History, ((findNewRepos current h).1.map (fun r => r.repo)).Nodup := by
  induction current with
  | nil => intro h; simp [findNewRepos]
  | cons a rs ih =>
    intro h
    cases hl : lookupHist h a.repo with
    | some v => rw [findNewRepos_cons_some a rs h v hl]; exact ih h
    | none =>
      rw [findNewRepos_cons_none a rs h hl]
      simp only [List.map_cons, List.nodup_cons]
      refine ⟨?_, ih _⟩
      intro hmem
      obtain ⟨q, hq, he⟩ := List.mem_map.mp hmem
      have hnone := mem_new_lookup_none rs q _ hq
      rw [he] at hnone
      have hsome : lookupHist (h ++ [(a.repo, a)]) a.repo = some a := by
        rw [lookupHist_append_none h _ _ hl]
        exact lookupHist_single a.repo a
      rw [hsome] at hnone
      cases hnone

theorem first_occurrence_new (pre : List RepoRecord) (r : RepoRecord) (post : List RepoRecord) :
    ∀ h : History, lookupHist h r.repo = none → (∀ p ∈ pre, p.repo ≠ r.repo) →
      r ∈ (findNewRepos (pre ++ r :: post) h).1 ∧
      lookupHist (findNewRepos (pre ++ r :: post) h).2 r.repo = some r := by
  induction pre with
  | nil =>
    intro h hn _
    rw [List.nil_append, findNewRepos_cons_none r post h hn]
    refine ⟨List.mem_cons_self r _, ?_⟩
    have hsome : lookupHist (h ++ [(r.repo, r)]) r.repo = some r := by
      rw [lookupHist_append_none h _ _ hn]
      exact lookupHist_single r.repo r
    exact lookup_preserved post _ r.repo r hsome
  | cons p pre' ih =>
    intro h hn hpre
    have hpr : p.repo ≠ r.repo := hpre p (List.mem_cons_self p pre')
    rw [List.cons_append]
    cases hl : lookupHist h p.repo with
    | some v =>
      rw [findNewRepos_cons_some p _ h v hl]
      exact ih h hn (fun q hq => hpre q (List.mem_cons_of_mem p hq))
    | none =>
      rw [findNewRepos_cons_none p _ h hl]
      have hn' : lookupHist (h ++ [(p.repo, p)]) r.repo = none := by
        rw [lookupHist_append_none h _ _ hn]
        exact lookupHist_single_ne p.repo r.repo p hpr
      obtain ⟨h1, h2⟩ := ih _ hn' (fun q hq => hpre q (List.mem_cons_of_mem p hq))
      exact ⟨List.mem_cons_of_mem p h1, h2⟩

/- Helper lemmas about the extractors and the JSON round trip. -/

theorem parseArticles_append (now : String) (xs ys : List Article) :
    parseArticles now (xs ++ ys) = parseArticles now xs ++ parseArticles now ys := by
  induction xs with
  | nil => rfl
  | cons a t ih =>
    cases ha : a.repoLink with
    | some href => simp [parseArticles, ha, ih]
    | none => simp [parseArticles, ha, ih]

theorem scrapeRepos_append (xs ys : List Article) :
    scrapeRepos (xs ++ ys) = scrapeRepos xs ++ scrapeRepos ys := by
  induction xs with
  | nil => rfl
  | cons a t ih =>
    cases ha : a.repoLink with
    | some href => simp [scrapeRepos, ha, ih]
    | none => simp [scrapeRepos, ha, ih]

theorem jsonToRecord_recordToJson (r : RepoRecord) : jsonToRecord (recordToJson r) = some r := by
  cases r
  simp [recordToJson, jsonToRecord]

/- Sample data used by the concrete witnesses. -/

/-- A sample repository record. -/
def sampleRec : RepoRecord :=
  { repo := "owner/repo", description := "A sample repository", language := "Python",
    stars := "1,234", first_seen := "2025-01-01 00:00:00" }

/-- A second sample repository record with a different identifier. -/
def sampleRec2 : RepoRecord :=
  { repo := "other/project", description := "Another repository", language := "Rust",
    stars := "56", first_seen := "2025-01-02 00:00:00" }

/-- A sample configuration with both environment values present. -/
def sampleConfig : TelegramConfig := { token := some "tok", chat_id := some "chat" }

/- Claims about the diff engine. -/

/-- Claim C1: for every fetched sequence and history mapping, the diff step
classifies a record as new exactly when its identifier is absent from the
mapping (every new record's identifier was absent, and every fetched record
with an absent identifier has a new record with its identifier), inserts an
entry for each new record while leaving the already-present entries
completely untouched (the final mapping is the original mapping followed
verbatim by one entry per new record, so lookups of present keys are
unchanged), and returns the new records as an ordered subsequence of the
fetched sequence. -/
theorem diff_classifies_new (current : List RepoRecord) (h : History) :
    (findNewRepos current h).1.Sublist current ∧
    (∀ r ∈ (findNewRepos current h).1, lookupHist h r.repo = none) ∧
    (∀ r ∈ current, lookupHist h r.repo = none →
      ∃ q ∈ (findNewRepos current h).1, q.repo = r.repo) ∧
    (findNewRepos current h).2 = h ++ (findNewRepos current h).1.map (fun r => (r.repo, r)) ∧
    (∀ k v, lookupHist h k = some v → lookupHist (findNewRepos current h).2 k = some v) := by
  refine ⟨new_sublist current h, ?_, ?_, findNewRepos_hist_eq current h, ?_⟩
  · intro r hr
    exact mem_new_lookup_none current r h hr
  · intro r hr hn
    exact new_coverage current r h hr hn
  · intro k v hv
    exact lookup_preserved current h k v hv

/-- Claim C1 witness: at a concrete input, a record whose identifier is
absent from the history is classified new. -/
theorem diff_classifies_new_witness :
    ∃ q ∈ (findNewRepos [sampleRec] []).1, q.repo = sampleRec.repo :=
  (diff_classifies_new [sampleRec] []).2.2.1 sampleRec (List.mem_cons_self sampleRec []) rfl

/-- Claim C2: the diff is idempotent. Running the pipeline a second time
against identical fetched data and the history saved by the first run yields
zero new records, the saved history is unchanged, and the first run grew the
history by exactly the number of new records it reported. -/
theorem diff_idempotent (today : String) (config : TelegramConfig)
    (current : List RepoRecord) (h : History) :
    (runMain today config current (runMain today config current h).savedHistory).newRepos = [] ∧
    (runMain today config current (runMain today config current h).savedHistory).savedHistory =
      (runMain today config current h).savedHistory ∧
    (runMain today config current h).savedHistory.length =
      h.length + (runMain today config current h).newRepos.length := by
  have hall : ∀ r ∈ current, (lookupHist (findNewRepos current h).2 r.repo).isSome = true :=
    fun r hr => final_contains current r h hr
  have h2 := no_new_of_all_present current (findNewRepos current h).2 hall
  refine ⟨?_, ?_, ?_⟩
  · show (findNewRepos current (findNewRepos current h).2).1 = []
    rw [h2]
  · show (findNewRepos current (findNewRepos current h).2).2 = (findNewRepos current h).2
    rw [h2]
  · show (findNewRepos current h).2.length = h.length + (findNewRepos current h).1.length
    rw [findNewRepos_hist_eq current h]
    simp

/-- Claim C3: the history store round-trips through save and load without
loss: reading back the serialized mapping returns an equal mapping. -/
theorem history_roundtrip (h : History) : loadHistory (saveHistory h) = some h := by
  induction h with
  | nil => rfl
  | cons p t ih =>
    obtain ⟨k, r⟩ := p
    have ht : loadEntries (t.map fun q => (q.1, recordToJson q.2)) = some t := ih
    show loadEntries (((k, r) :: t).map fun q => (q.1, recordToJson q.2)) = some ((k, r) :: t)
    simp [loadEntries, jsonToRecord_recordToJson, ht]

/-- Claim C9: over a single run the history only grows. Every identifier
present before the run is still mapped to the same record afterwards, and
the number of new records equals the increase in the mapping's size. -/
theorem history_monotone (current : List RepoRecord) (h : History) :
    (∀ k v, lookupHist h k = some v → lookupHist (findNewRepos current h).2 k = some v) ∧
    (findNewRepos current h).2.length = h.length + (findNewRepos current h).1.length := by
  refine ⟨?_, ?_⟩
  · intro k v hv
    exact lookup_preserved current h k v hv
  · rw [findNewRepos_hist_eq current h]
    simp

/-- Claim C9 witness: at a concrete input, an entry present before the run
is unchanged afterwards. -/
theorem history_monotone_witness :
    lookupHist (findNewRepos [sampleRec2] [("owner/repo", sampleRec)]).2 "owner/repo" =
      some sampleRec :=
  (history_monotone [sampleRec2] [("owner/repo", sampleRec)]).1 "owner/repo" sampleRec
    (by decide)

/-- Claim C10: duplicate identifiers within one fetched sequence are
classified new only at their first occurrence — the output contains each
identifier at most once, and the first occurrence of an identifier that is
absent from the history is classified new and is the record stored in the
mapping. -/
theorem duplicate_first_occurrence_only (current : List RepoRecord) (h : History) :
    ((findNewRepos current h).1.map (fun r => r.repo)).Nodup ∧
    (∀ pre r post, current = pre ++ r :: post → lookupHist h r.repo = none →
      (∀ p ∈ pre, p.repo ≠ r.repo) →
      r ∈ (findNewRepos current h).1 ∧
      lookupHist (findNewRepos current h).2 r.repo = some r) := by
  refine ⟨new_ids_nodup current h, ?_⟩
  intro pre r post hcur hn hpre
  rw [hcur]
  exact first_occurrence_new pre r post h hn hpre

/-- Claim C10 witness: with the same record fetched twice against an empty
history, its first occurrence is classified new and stored. -/
theorem duplicate_first_occurrence_only_witness :
    sampleRec ∈ (findNewRepos [sampleRec, sampleRec] []).1 ∧
    lookupHist (findNewRepos [sampleRec, sampleRec] []).2 sampleRec.repo = some sampleRec :=
  (duplicate_first_occurrence_only [sampleRec, sampleRec] []).2 [] sampleRec [sampleRec]
    rfl rfl (fun p hp => absurd hp (List.not_mem_nil p))

/- Claims about the notifiers, the fetch failure path and the configuration. -/

/-- Twenty-five distinct repository records, used to exhibit the tracker
notifier's behaviour on a long input. -/
def manyRecs : List RepoRecord :=
  (List.range 25).map fun i =>
    { repo := "r" ++ toString i, description := "d", language := "L", stars := "1",
      first_seen := "t" }

/-- Claim C4 counterexample: the tracker's notifier does NOT split. With 25
fresh records the run classifies all 25 as new yet sends exactly one message
(not three), so a message carries 25 record blocks, far beyond the
ten-record cap. -/
theorem notifier_split_counterexample :
    manyRecs.length = 25 ∧
    (runMain "2025-06-01" sampleConfig manyRecs []).newRepos.length = 25 ∧
    (runMain "2025-06-01" sampleConfig manyRecs []).sent.length = 1 := by
  refine ⟨by decide, by decide, rfl⟩

/-- Claim C4 (amended): the scraper's notifier splits: any sequence of 25
records yields exactly 3 messages, each carrying at most 10 records, the
first under the main header and each later one under the continuation
header, with all records placed in order; the tracker's notifier instead
always sends exactly one message. -/
theorem notifier_split_scraper (l : List ScrapedRepo) (hl : l.length = 25) :
    (scraperMessages l).length = 3 ∧
    (∀ m ∈ scraperMessages l, m.recs.length ≤ 10) ∧
    (scraperMessages l).map TgMessage.header = [mainHeader, contHeader, contHeader] ∧
    ((scraperMessages l).map TgMessage.recs).flatten = l ∧
    (∀ (today : String) (config : TelegramConfig) (fetched : List RepoRecord) (h : History),
      (runMain today config fetched h).sent.length = 1) := by
  rcases l with _ | ⟨a1, l⟩
  · simp at hl
  rcases l with _ | ⟨a2, l⟩
  · simp at hl
  rcases l with _ | ⟨a3, l⟩
  · simp at hl
  rcases l with _ | ⟨a4, l⟩
  · simp at hl
  rcases l with _ | ⟨a5, l⟩
  · simp at hl
  rcases l with _ | ⟨a6, l⟩
  · simp at hl
  rcases l with _ | ⟨a7, l⟩
  · simp at hl
  rcases l with _ | ⟨a8, l⟩
  · simp at hl
  rcases l with _ | ⟨a9, l⟩
  · simp at hl
  rcases l with _ | ⟨a10, l⟩
  · simp at hl
  rcases l with _ | ⟨a11, l⟩
  · simp at hl
  rcases l with _ | ⟨a12, l⟩
  · simp at hl
  rcases l with _ | ⟨a13, l⟩
  · simp at hl
  rcases l with _ | ⟨a14, l⟩
  · simp at hl
  rcases l with _ | ⟨a15, l⟩
  · simp at hl
  rcases l with _ | ⟨a16, l⟩
  · simp at hl
  rcases l with _ | ⟨a17, l⟩
  · simp at hl
  rcases l with _ | ⟨a18, l⟩
  · simp at hl
  rcases l with _ | ⟨a19, l⟩
  · simp at hl
  rcases l with _ | ⟨a20, l⟩
  · simp at hl
  rcases l with _ | ⟨a21, l⟩
  · simp at hl
  rcases l with _ | ⟨a22, l⟩
  · simp at hl
  rcases l with _ | ⟨a23, l⟩
  · simp at hl
  rcases l with _ | ⟨a24, l⟩
  · simp at hl
  rcases l with _ | ⟨a25, l⟩
  · simp at hl
  rcases l with _ | ⟨a26, l⟩
  swap
  · simp only [List.length_cons] at hl
    omega
  have e : scraperMessages
      [a1, a2, a3, a4, a5, a6, a7, a8, a9, a10, a11, a12, a13, a14, a15, a16, a17, a18,
        a19, a20, a21, a22, a23, a24, a25] =
      [{ header := mainHeader, recs := [a1, a2, a3, a4, a5, a6, a7, a8, a9, a10] },
       { header := contHeader, recs := [a11, a12, a13, a14, a15, a16, a17, a18, a19, a20] },
       { header := contHeader, recs := [a21, a22, a23, a24, a25] }] := rfl
  refine ⟨?_, ?_, ?_, ?_, ?_⟩
  · rw [e]
    rfl
  · rw [e]
    intro m hm
    simp only [List.mem_cons, List.not_mem_nil, or_false] at hm
    rcases hm with rfl | rfl | rfl <;> simp
  · rw [e]
    rfl
  · rw [e]
    rfl
  · intro today config fetched h
    rfl

/-- A sample scraped repository record. -/
def sampleScraped : ScrapedRepo :=
  { name := "o/r", url := "https://github.com/o/r", description := "d" }

/-- Claim C4 witness: a concrete sequence of 25 records is split into
exactly 3 messages. -/
theorem notifier_split_scraper_witness :
    (List.replicate 25 sampleScraped).length = 25 ∧
    (scraperMessages (List.replicate 25 sampleScraped)).length = 3 :=
  ⟨by decide, (notifier_split_scraper (List.replicate 25 sampleScraped) (by decide)).1⟩

/-- Claim C5: on any non-200 fetch status the fetch step returns the empty
result set, and the run completes with no new repositories, the history
mapping persisted unchanged, and exactly one no-new-repositories message
sent. -/
theorem fetch_failure_run (status : Nat) (now today : String) (articles : List Article)
    (config : TelegramConfig) (h : History) (hs : status ≠ 200) :
    fetchTrendingRepos status now articles = [] ∧
    runMain today config (fetchTrendingRepos status now articles) h =
      { newRepos := [], savedHistory := h,
        sent := [sendToTelegramTracker (noNewMessage today) config] } := by
  have hf : fetchTrendingRepos status now articles = [] := by
    simp [fetchTrendingRepos, hs]
  refine ⟨hf, ?_⟩
  rw [hf]
  rfl

/-- Claim C5 witness: the HTTP 404 scenario at concrete inputs. -/
theorem fetch_failure_run_witness :
    fetchTrendingRepos 404 "2025-01-01 00:00:00" [] = [] ∧
    runMain "2025-01-01" sampleConfig (fetchTrendingRepos 404 "2025-01-01 00:00:00" []) [] =
      { newRepos := [], savedHistory := [],
        sent := [sendToTelegramTracker (noNewMessage "2025-01-01") sampleConfig] } :=
  fetch_failure_run 404 "2025-01-01 00:00:00" "2025-01-01" [] sampleConfig [] (by decide)

/-- Claim C6 counterexample: with the token absent the tracker does NOT fail
before sending — `return_telegram_config` builds the configuration without
any error, and the run still issues one send request, with the missing token
rendered as the text None inside the request URL. -/
theorem token_missing_counterexample :
    (returnTelegramConfig none (some "chat")).token = none ∧
    (runMain "2025-06-01" (returnTelegramConfig none (some "chat")) [] []).sent.length = 1 ∧
    (runMain "2025-06-01" (returnTelegramConfig none (some "chat")) [] []).sent.map
        TelegramRequest.url = ["https://api.telegram.org/botNone/sendMessage"] := by
  refine ⟨rfl, rfl, by decide⟩

/-- Claim C6 (amended): only the scraper's send function treats a missing
(or empty) token as a hard error, raising ValueError inside the send call —
before its HTTP request is issued but not at configuration-construction
time; the tracker's configuration step performs no check at all and its send
step issues the request with the missing token interpolated as None. -/
theorem token_missing_amended (chat : Option String) (message : String) :
    sendToTelegramScraper chat message none = Except.error tokenErrorText ∧
    sendToTelegramScraper chat message (some "") = Except.error tokenErrorText ∧
    (returnTelegramConfig none chat).token = none ∧
    sendToTelegramTracker message (returnTelegramConfig none chat) =
      { url := "https://api.telegram.org/botNone/sendMessage", chat_id := chat,
        text := message } := by
  refine ⟨?_, ?_, rfl, rfl⟩
  · simp [sendToTelegramScraper]
  · simp [sendToTelegramScraper]

/-- Claim C7: each field of a repository entry block is extracted
independently with its fixed default when absent — identifier from the link
path trimmed of slashes, description defaulting to the empty string in the
tracker and to the placeholder text in the scraper, language defaulting to
Unknown, stars defaulting to "0" — and an entry without a repository link is
skipped without aborting extraction of the surrounding entries. -/
theorem extractor_field_independence (now : String) (pre post : List Article) (a : Article) :
    (a.repoLink = none →
      parseArticles now (pre ++ a :: post) = parseArticles now pre ++ parseArticles now post ∧
      scrapeRepos (pre ++ a :: post) = scrapeRepos pre ++ scrapeRepos post) ∧
    (∀ href, a.repoLink = some href →
      parseArticles now (pre ++ a :: post) =
        parseArticles now pre ++ trackerRecord now a href :: parseArticles now post ∧
      (trackerRecord now a href).repo = stripSlashes href ∧
      (a.descriptionText = none → (trackerRecord now a href).description = "") ∧
      (∀ d, a.descriptionText = some d → (trackerRecord now a href).description = stripWs d) ∧
      (a.languageText = none → (trackerRecord now a href).language = "Unknown") ∧
      (∀ s, a.languageText = some s → (trackerRecord now a href).language = stripWs s) ∧
      (a.starsText = none → (trackerRecord now a href).stars = "0") ∧
      (∀ s, a.starsText = some s → (trackerRecord now a href).stars = stripWs s) ∧
      scrapeRepos (pre ++ a :: post) =
        scrapeRepos pre ++ scrapedRecord a href :: scrapeRepos post ∧
      (a.descriptionText = none → (scrapedRecord a href).description = "Нет описания")) := by
  constructor
  · intro hn
    constructor
    · rw [parseArticles_append]
      simp [parseArticles, hn]
    · rw [scrapeRepos_append]
      simp [scrapeRepos, hn]
  · intro href hsome
    refine ⟨?_, rfl, ?_, ?_, ?_, ?_, ?_, ?_, ?_, ?_⟩
    · rw [parseArticles_append]
      simp [parseArticles, hsome]
    · intro hd
      simp [trackerRecord, hd]
    · intro d hd
      simp [trackerRecord, hd]
    · intro hq
      simp [trackerRecord, hq]
    · intro s hq
      simp [trackerRecord, hq]
    · intro hq
      simp [trackerRecord, hq]
    · intro s hq
      simp [trackerRecord, hq]
    · rw [scrapeRepos_append]
      simp [scrapeRepos, hsome]
    · intro hd
      simp [scrapedRecord, hd]

/-- A sample entry block: the repository link is present but description,
language and star elements are all missing. -/
def sampleArticle : Article :=
  { repoLink := some "/owner/name/", descriptionText := none, languageText := none,
    starsText := none }

/-- Claim C7 witness: a concrete block missing every optional field still
yields a record, with the identifier trimmed of slashes and every other
field at its default. -/
theorem extractor_field_independence_witness :
    parseArticles "T" ([] ++ sampleArticle :: []) =
      parseArticles "T" [] ++ trackerRecord "T" sampleArticle "/owner/name/" ::
        parseArticles "T" [] ∧
    (trackerRecord "T" sampleArticle "/owner/name/").repo = stripSlashes "/owner/name/" ∧
    (trackerRecord "T" sampleArticle "/owner/name/").description = "" ∧
    (trackerRecord "T" sampleArticle "/owner/name/").language = "Unknown" ∧
    (trackerRecord "T" sampleArticle "/owner/name/").stars = "0" := by
  have t := (extractor_field_independence "T" [] [] sampleArticle).2 "/owner/name/" rfl
  exact ⟨t.1, t.2.1, t.2.2.1 rfl, t.2.2.2.2.1 rfl, t.2.2.2.2.2.2.1 rfl⟩

/-- Claim C8: whenever the diff result is empty the notifier produces and
sends exactly one message, the fixed no-new-repositories announcement,
rather than sending nothing. -/
theorem empty_diff_single_message (today : String) (config : TelegramConfig)
    (fetched : List RepoRecord) (h : History)
    (he : (findNewRepos fetched h).1 = []) :
    (runMain today config fetched h).sent =
      [sendToTelegramTracker (noNewMessage today) config] ∧
    (runMain today config fetched h).sent.length = 1 := by
  have hs : (runMain today config fetched h).sent =
      [sendToTelegramTracker
        (formatReposForTelegram today (findNewRepos fetched h).1) config] := rfl
  rw [he] at hs
  exact ⟨hs, rfl⟩

/-- Claim C8 witness: a run whose only fetched record is already in the
history sends exactly the no-new-repositories message. -/
theorem empty_diff_single_message_witness :
    (runMain "2025-01-01" sampleConfig [sampleRec] [("owner/repo", sampleRec)]).sent =
      [sendToTelegramTracker (noNewMessage "2025-01-01") sampleConfig] :=
  (empty_diff_single_message "2025-01-01" sampleConfig [sampleRec]
    [("owner/repo", sampleRec)] (by decide)).1
